import Mathlib

/-!
Verification of the day-2 cube-game code (src/day2/dice.rs, input.rs, part2.rs).

Strings are embedded as `List Char`; the Rust string primitives used by the
code (`str::trim`, `str::split`, `str::split_whitespace`, `str::lines`,
`str::to_lowercase`, `str::starts_with`, `u64::from_str`) are modelled below
as executable functions on `List Char`, and the day-2 functions are then a
direct transcription of the Rust source on top of them.
-/

namespace Day2

/-- Rust `char::is_whitespace`, restricted to the ASCII whitespace characters
(the inputs in scope are ASCII). -/
def isWS (c : Char) : Bool :=
  c == ' ' || c == '\t' || c == '\n' || c == '\r' || c == '\x0b' || c == '\x0c'

/-- Rust `str::trim`: remove leading and trailing whitespace. -/
def trim (l : List Char) : List Char :=
  ((l.dropWhile isWS).reverse.dropWhile isWS).reverse

/-- Rust `str::split(pred)`: split at every character satisfying `p`,
keeping empty pieces; always returns at least one piece. -/
def splitP (p : Char → Bool) : List Char → List (List Char)
  | [] => [[]]
  | c :: rest =>
    let r := splitP p rest
    if p c then [] :: r
    else
      match r with
      | [] => [[c]]
      | piece :: pieces => (c :: piece) :: pieces

/-- Rust `str::split(sep)` for a single separator character. -/
def splitOnChar (sep : Char) (l : List Char) : List (List Char) :=
  splitP (fun c => c == sep) l

/-- Rust `str::split_whitespace`: split on runs of whitespace, no empty
pieces, leading/trailing whitespace ignored. -/
def splitWhitespace (l : List Char) : List (List Char) :=
  (splitP isWS l).filter (fun piece => ¬ piece.isEmpty)

/-- Strip one trailing carriage return, as Rust `str::lines` does for lines
terminated by a newline. -/
def stripCR (l : List Char) : List Char :=
  if l.getLast? = some '\r' then l.dropLast else l

/-- Rust `str::lines`: split on `\n`, strip a trailing `\r` from each
newline-terminated piece, and do not produce a final empty line for a
trailing newline. -/
def rustLines (s : List Char) : List (List Char) :=
  let ps := splitOnChar '\n' s
  (ps.dropLast.map stripCR) ++
    (match ps.getLast? with
     | some last => if last.isEmpty then [] else [last]
     | none => [])

/-- The optional leading `+` sign accepted by Rust `u64::from_str`. -/
def stripPlus : List Char → List Char
  | '+' :: rest => rest
  | other => other

/-- The digit phase of Rust `u64::from_str`: one or more ASCII digits,
value below `2 ^ 64`; anything else fails. -/
def parseU64Digits (digits : List Char) : Option Nat :=
  if digits.isEmpty then none
  else if digits.all Char.isDigit then
    let n := digits.foldl (fun acc c => acc * 10 + (c.toNat - 48)) 0
    if n < 2 ^ 64 then some n else none
  else none

/-- Rust `u64::from_str`: an optional leading `+`, then one or more ASCII
digits, value below `2 ^ 64`; anything else fails. -/
def parseU64 (l : List Char) : Option Nat :=
  parseU64Digits (stripPlus l)

/-- Embeds `Color` from dice.rs. -/
inductive Color where
  | Red
  | Green
  | Blue
deriving DecidableEq, Repr

/-- Embeds `Color::try_from_str` from dice.rs: lowercase, trim, then match one of
the three recognized names. -/
def Color.try_from_str (raw : List Char) : Option Color :=
  let t := trim (raw.map Char.toLower)
  if t = "red".data then some Color.Red
  else if t = "green".data then some Color.Green
  else if t = "blue".data then some Color.Blue
  else none

/-- Embeds `Bag` from dice.rs: a `HashMap<Color, u64>`, embedded as one optional
count per color (the map holds at most one entry per key). `none` means the
color is absent from the map. -/
structure Bag where
  red : Option Nat
  green : Option Nat
  blue : Option Nat
deriving DecidableEq, Repr

/-- Lookup in the underlying map (`HashMap::get`). -/
def Bag.get (b : Bag) : Color → Option Nat
  | Color.Red => b.red
  | Color.Green => b.green
  | Color.Blue => b.blue

/-- Embeds `HashMap::insert` on the underlying map. -/
def Bag.insert (b : Bag) (c : Color) (n : Nat) : Bag :=
  match c with
  | Color.Red => { b with red := some n }
  | Color.Green => { b with green := some n }
  | Color.Blue => { b with blue := some n }

/-- Embeds `Bag::default()`: the empty map. -/
def Bag.empty : Bag := ⟨none, none, none⟩

/-- The fixed universe of keys, used to iterate over a map's entries. -/
def allColors : List Color := [Color.Red, Color.Green, Color.Blue]

/-- The (color, count) entries present in the map, the embedding of
iterating over the `HashMap` (iteration order is irrelevant everywhere the
source iterates: `can_contain` is a conjunction and `with_bag` writes to
distinct keys). -/
def Bag.entries (b : Bag) : List (Color × Nat) :=
  allColors.filterMap (fun c => (b.get c).map (fun n => (c, n)))

/-- Embeds `Bag::can_contain` from dice.rs: for every (color, needed) entry of
`other`, `self` must hold that color with `needed ≤ available`; a color of
`other` absent from `self` fails immediately. -/
def Bag.can_contain (self other : Bag) : Bool :=
  other.entries.all (fun entry =>
    match self.get entry.1 with
    | none => false
    | some available => entry.2 ≤ available)

/-- Embeds `BagBuilder` from dice.rs. -/
structure BagBuilder where
  dice : Bag
deriving DecidableEq, Repr

/-- Embeds `BagBuilder::new()`. -/
def BagBuilder.new : BagBuilder := ⟨Bag.empty⟩

/-- Embeds `BagBuilder::with_dice`: insert/overwrite the count for the color. -/
def BagBuilder.with_dice (b : BagBuilder) (c : Color) (n : Nat) : BagBuilder :=
  ⟨b.dice.insert c n⟩

/-- Embeds `BagBuilder::with_bag`: `with_dice` for each entry of `other`. -/
def BagBuilder.with_bag (b : BagBuilder) (other : Bag) : BagBuilder :=
  other.entries.foldl (fun acc entry => acc.with_dice entry.1 entry.2) b

/-- Embeds `BagBuilder::build()`: snapshot the staged map. -/
def BagBuilder.build (b : BagBuilder) : Bag := b.dice

/-- Embeds `Game` from dice.rs: an ordered sequence of draws. -/
structure Game where
  sets : List Bag
deriving DecidableEq, Repr

/-- Embeds `Game::new`. -/
def Game.new (sets : List Bag) : Game := ⟨sets⟩

/-- Embeds `Game::fits_in` from dice.rs: every draw must be containable by `bag`. -/
def Game.fits_in (g : Game) (bag : Bag) : Bool :=
  g.sets.all (fun s => bag.can_contain s)

/-- Modelled from the spec: `Game::get_requirements` is called from input.rs
and part2.rs but its definition is not under src/. Spec §4.5: "the smallest
bag such that every draw is contained by it — i.e., for each category, the
maximum count seen across all draws for that category; categories never
drawn are absent". -/
def Game.get_requirements (g : Game) : Bag :=
  let maxFor : Color → Option Nat := fun c =>
    match g.sets.filterMap (fun b => b.get c) with
    | [] => none
    | counts => some (counts.foldl Nat.max 0)
  ⟨maxFor Color.Red, maxFor Color.Green, maxFor Color.Blue⟩

/-- Modelled from the spec: `Bag::get_power` is called from part2.rs but its
definition is not under src/. Spec §4.2: "product of all counts present; if
no categories are present, the product is the empty-product identity, 1". -/
def Bag.get_power (b : Bag) : Nat :=
  (b.entries.map (fun entry => entry.2)).foldl (fun acc n => acc * n) 1

/-- Embeds `Error` from input.rs. -/
inductive Error where
  | MissingParts
  | TooManyParts
  | BadlyFormattedTitle
  | BadlyFormattedDie
  | UnknownColor
deriving DecidableEq, Repr

/-- Embeds `NumberedGame` from input.rs. -/
structure NumberedGame where
  id : Nat
  game : Game
deriving DecidableEq, Repr

/-- Embeds `NumberedGame::is_possible_for` from input.rs. -/
def NumberedGame.is_possible_for (ng : NumberedGame) (bag : Bag) : Bool :=
  ng.game.fits_in bag

/-- Embeds `NumberedGame::get_requirements` from input.rs. -/
def NumberedGame.get_requirements (ng : NumberedGame) : Bag :=
  ng.game.get_requirements

/-- Embeds `parse_title` from input.rs: trim, require the prefix `"Game "`, split on
single spaces into exactly two parts, parse the second part as a `u64`. -/
def parse_title (raw : List Char) : Except Error Nat :=
  let t := trim raw
  if ¬ ("Game ".data.isPrefixOf t) then Except.error Error.BadlyFormattedTitle
  else
    let parts := splitOnChar ' ' t
    if parts.length = 2 then
      match parseU64 (parts.getD 1 []) with
      | none => Except.error Error.BadlyFormattedTitle
      | some n => Except.ok n
    else Except.error Error.BadlyFormattedTitle

/-- Embeds `parse_die` from input.rs: split on whitespace into exactly two parts
(else `BadlyFormattedDie`), parse the count as `u64` (else
`BadlyFormattedDie`), parse the color (else `UnknownColor`). -/
def parse_die (raw : List Char) : Except Error Bag :=
  match splitWhitespace raw with
  | [countStr, colorStr] =>
    match parseU64 countStr with
    | none => Except.error Error.BadlyFormattedDie
    | some count =>
      match Color.try_from_str colorStr with
      | none => Except.error Error.UnknownColor
      | some color => Except.ok ((BagBuilder.new.with_dice color count).build)
  | _ => Except.error Error.BadlyFormattedDie

/-- The loop body of `parse_set`: fold the comma-separated die tokens into
one builder, stopping at the first error. -/
def parse_set_go (bag : BagBuilder) : List (List Char) → Except Error BagBuilder
  | [] => Except.ok bag
  | die :: rest =>
    match parse_die (trim die) with
    | Except.error e => Except.error e
    | Except.ok d => parse_set_go (bag.with_bag d) rest

/-- Embeds `parse_set` from input.rs: split on `,`, parse each trimmed die token,
merge into one bag. -/
def parse_set (raw : List Char) : Except Error Bag :=
  match parse_set_go BagBuilder.new (splitOnChar ',' raw) with
  | Except.error e => Except.error e
  | Except.ok bag => Except.ok bag.build

/-- The loop body of `parse_game`: parse each trimmed semicolon-separated
draw, stopping at the first error. -/
def parse_game_go : List (List Char) → Except Error (List Bag)
  | [] => Except.ok []
  | setStr :: rest =>
    match parse_set (trim setStr) with
    | Except.error e => Except.error e
    | Except.ok set =>
      match parse_game_go rest with
      | Except.error e => Except.error e
      | Except.ok sets => Except.ok (set :: sets)

/-- Embeds `parse_game` from input.rs: trim, split on `;`, parse each draw. -/
def parse_game (raw : List Char) : Except Error Game :=
  match parse_game_go (splitOnChar ';' (trim raw)) with
  | Except.error e => Except.error e
  | Except.ok sets => Except.ok (Game.new sets)

/-- Embeds `parse_line` from input.rs: trim, split on `:`; fewer than two segments
is `MissingParts`, more than two is `TooManyParts`, otherwise parse the
title then the body. -/
def parse_line (line : List Char) : Except Error NumberedGame :=
  match splitOnChar ':' (trim line) with
  | [] => Except.error Error.MissingParts
  | [_] => Except.error Error.MissingParts
  | [title, sets] =>
    match parse_title title with
    | Except.error e => Except.error e
    | Except.ok id =>
      match parse_game sets with
      | Except.error e => Except.error e
      | Except.ok game => Except.ok ⟨id, game⟩
  | _ => Except.error Error.TooManyParts

/-- The line sequence `parse_input` iterates over: lines of the document,
trimmed, with lines empty after trimming discarded. -/
def inputLines (input : List Char) : List (List Char) :=
  ((rustLines input).map trim).filter (fun l => ¬ l.isEmpty)

/-- The aggregation loop of `parse_input`: parse each line, stopping at the
first error. -/
def parse_input_go : List (List Char) → Except Error (List NumberedGame)
  | [] => Except.ok []
  | line :: rest =>
    match parse_line line with
    | Except.error e => Except.error e
    | Except.ok g =>
      match parse_input_go rest with
      | Except.error e => Except.error e
      | Except.ok gs => Except.ok (g :: gs)

/-- Embeds `parse_input` from input.rs. -/
def parse_input (input : List Char) : Except Error (List NumberedGame) :=
  parse_input_go (inputLines input)

/-- Embeds `calculate_result` from part2.rs: sum of the powers. -/
def calculate_result (powers : List Nat) : Nat :=
  powers.foldl (fun acc n => acc + n) 0

/-- The example document from the `can_reproduce_the_example` test in
part2.rs (a Rust raw string: leading newline, indented lines, trailing
spaces). -/
def exampleInput : List Char :=
  ("\n        Game 1: 3 blue, 4 red; 1 red, 2 green, 6 blue; 2 green\n        Game 2: 1 blue, 2 green; 3 green, 4 blue, 1 red; 1 green, 1 blue\n        Game 3: 8 green, 6 blue, 20 red; 5 blue, 4 red, 13 green; 5 green, 1 red\n        Game 4: 1 green, 3 red, 6 blue; 3 green, 6 red; 3 green, 15 blue, 14 red\n        Game 5: 6 red, 1 blue, 3 green; 2 blue, 1 red, 2 green\n    ").data

/-- The containment predicate exactly as the spec sentence of claim C2
states it: false if `other` has a category absent from `self` with
count > 0, or a greater count for a shared category; true in every other
case (so a category of `other` with count 0 absent from `self` is
contained). -/
def specContains (self other : Bag) : Bool :=
  allColors.all (fun c =>
    match other.get c, self.get c with
    | none, _ => true
    | some needed, none => needed = 0
    | some needed, some available => needed ≤ available)

/-- The containment predicate with the absence clause amended to match the
code: a category of `other` absent from `self` fails regardless of its
count. -/
def specContainsStrict (self other : Bag) : Bool :=
  allColors.all (fun c =>
    match other.get c, self.get c with
    | none, _ => true
    | some _, none => false
    | some needed, some available => needed ≤ available)

/-! ## Helper lemmas -/

theorem with_bag_get (b : BagBuilder) (other : Bag) (c : Color) :
    (b.with_bag other).dice.get c =
      match other.get c with
      | some k => some k
      | none => b.dice.get c := by
  obtain ⟨r, g, bl⟩ := other
  cases r <;> cases g <;> cases bl <;> cases c <;>
    simp [BagBuilder.with_bag, Bag.entries, allColors, BagBuilder.with_dice,
      Bag.insert, Bag.get]

theorem entries_ne_of_get (b : Bag) (c : Color) (n : Nat)
    (h : b.get c = some n) : b.entries ≠ [] := by
  obtain ⟨r, g, bl⟩ := b
  cases r <;> cases g <;> cases bl <;> cases c <;>
    simp [Bag.get] at h <;>
    simp [Bag.entries, allColors, Bag.get]

theorem parseU64Digits_lt (d : List Char) (n : Nat)
    (h : parseU64Digits d = some n) : n < 2 ^ 64 := by
  unfold parseU64Digits at h
  split at h
  · exact absurd h (by simp)
  · split at h
    · dsimp only at h
      split at h
      · cases h
        assumption
      · exact absurd h (by simp)
    · exact absurd h (by simp)

theorem parseU64_lt (l : List Char) (n : Nat) (h : parseU64 l = some n) :
    n < 2 ^ 64 :=
  parseU64Digits_lt (stripPlus l) n h

theorem splitP_ne_nil (p : Char → Bool) (l : List Char) : splitP p l ≠ [] := by
  induction l with
  | nil => simp [splitP]
  | cons c rest ih =>
    by_cases hc : p c
    · simp [splitP, hc]
    · simp only [splitP, hc]
      cases hsp : splitP p rest <;> simp

theorem insert_get_self (b : Bag) (c : Color) (n : Nat) :
    (b.insert c n).get c = some n := by
  cases c <;> simp [Bag.insert, Bag.get]

theorem parse_die_ok_get (raw : List Char) (b : Bag)
    (h : parse_die raw = Except.ok b) : ∃ c n, b.get c = some n := by
  unfold parse_die at h
  split at h
  · split at h
    · simp at h
    · split at h
      · simp at h
      · injection h with h2
        exact ⟨_, _, by rw [← h2]; exact insert_get_self Bag.empty _ _⟩
  · simp at h

theorem with_bag_entries_ne (b : BagBuilder) (other : Bag) (c : Color)
    (n : Nat) (h : other.get c = some n) :
    (b.with_bag other).dice.entries ≠ [] := by
  apply entries_ne_of_get _ c n
  simp [with_bag_get, h]

theorem parse_set_go_entries (L : List (List Char)) (bag bag' : BagBuilder)
    (h : parse_set_go bag L = Except.ok bag')
    (hne : L ≠ [] ∨ bag.dice.entries ≠ []) : bag'.dice.entries ≠ [] := by
  induction L generalizing bag with
  | nil =>
    obtain rfl : bag = bag' := by simpa [parse_set_go] using h
    rcases hne with hne | hne
    · exact absurd rfl hne
    · exact hne
  | cons d rest ih =>
    unfold parse_set_go at h
    split at h
    · simp at h
    · rename_i dd hd
      obtain ⟨c, n, hc⟩ := parse_die_ok_get (trim d) dd hd
      exact ih (bag.with_bag dd) h (Or.inr (with_bag_entries_ne bag dd c n hc))

theorem parse_set_ok_entries (raw : List Char) (b : Bag)
    (h : parse_set raw = Except.ok b) : b.entries ≠ [] := by
  unfold parse_set at h
  split at h
  · simp at h
  · rename_i builder hgo
    obtain rfl : builder.build = b := by simpa using h
    exact parse_set_go_entries (splitOnChar ',' raw) BagBuilder.new builder hgo
      (Or.inl (splitP_ne_nil _ raw))

theorem parse_game_go_ok (L : List (List Char)) (sets : List Bag)
    (h : parse_game_go L = Except.ok sets) :
    sets.length = L.length ∧ ∀ b ∈ sets, b.entries ≠ [] := by
  induction L generalizing sets with
  | nil =>
    obtain rfl : ([] : List Bag) = sets := by simpa [parse_game_go] using h
    simp
  | cons s rest ih =>
    unfold parse_game_go at h
    split at h
    · simp at h
    · rename_i set0 hset
      split at h
      · simp at h
      · rename_i sets2 hrest
        obtain rfl : set0 :: sets2 = sets := by simpa using h
        obtain ⟨hlen, hmem⟩ := ih sets2 hrest
        refine ⟨by simp [hlen], ?_⟩
        intro b hb
        rcases List.mem_cons.mp hb with rfl | hb2
        · exact parse_set_ok_entries (trim s) b hset
        · exact hmem b hb2

theorem parse_game_ok_props (raw : List Char) (g : Game)
    (h : parse_game raw = Except.ok g) :
    g.sets ≠ [] ∧ ∀ b ∈ g.sets, b.entries ≠ [] := by
  unfold parse_game at h
  split at h
  · simp at h
  · rename_i sets hgo
    obtain rfl : Game.new sets = g := by simpa using h
    obtain ⟨hlen, hmem⟩ := parse_game_go_ok _ sets hgo
    refine ⟨?_, hmem⟩
    intro hnil
    have hs : sets = [] := hnil
    rw [hs] at hlen
    simp only [List.length_nil] at hlen
    exact splitP_ne_nil (fun c => c == ';') (trim raw)
      (List.length_eq_zero.mp hlen.symm)

theorem parse_input_go_ok_iff (L : List (List Char)) (gs : List NumberedGame) :
    parse_input_go L = Except.ok gs ↔ L.map parse_line = gs.map Except.ok := by
  induction L generalizing gs with
  | nil => cases gs <;> simp [parse_input_go]
  | cons l rest ih =>
    cases h : parse_line l <;> cases gs <;> cases h2 : parse_input_go rest <;>
      simp [parse_input_go, h, h2, ← ih]

theorem parse_input_go_error_iff (L : List (List Char)) (e : Error) :
    parse_input_go L = Except.error e ↔
      ∃ pre bad post, L = pre ++ bad :: post ∧
        (∀ l ∈ pre, ∃ g, parse_line l = Except.ok g) ∧
        parse_line bad = Except.error e := by
  induction L with
  | nil =>
    constructor
    · intro h
      exact absurd h (by simp [parse_input_go])
    · rintro ⟨pre, bad, post, hsplit, -, -⟩
      exact absurd hsplit.symm (by simp)
  | cons l rest ih =>
    cases h : parse_line l with
    | error e0 =>
      constructor
      · intro hgo
        have he : e0 = e := by simpa [parse_input_go, h] using hgo
        exact ⟨[], l, rest, rfl, by simp, by rw [h, he]⟩
      · rintro ⟨pre, bad, post, hsplit, hpre, hbad⟩
        cases pre with
        | nil =>
          obtain ⟨rfl, rfl⟩ : l = bad ∧ rest = post := by simpa using hsplit
          rw [h] at hbad
          simp [parse_input_go, h]
          exact (Except.error.injEq _ _).mp hbad
        | cons p pre2 =>
          obtain ⟨rfl, -⟩ : l = p ∧ rest = pre2 ++ bad :: post := by
            simpa using hsplit
          obtain ⟨g, hg⟩ := hpre l (by simp)
          rw [h] at hg
          cases hg
    | ok g =>
      cases h2 : parse_input_go rest with
      | error e0 =>
        constructor
        · intro hgo
          have he : e0 = e := by simpa [parse_input_go, h, h2] using hgo
          obtain ⟨pre, bad, post, hsplit, hpre, hbad⟩ := ih.mp (by rw [h2, he])
          refine ⟨l :: pre, bad, post, by rw [hsplit]; rfl, ?_, hbad⟩
          intro x hx
          rcases List.mem_cons.mp hx with rfl | hx2
          · exact ⟨g, h⟩
          · exact hpre x hx2
        · rintro ⟨pre, bad, post, hsplit, hpre, hbad⟩
          cases pre with
          | nil =>
            obtain ⟨rfl, -⟩ : l = bad ∧ rest = post := by simpa using hsplit
            rw [h] at hbad
            cases hbad
          | cons p pre2 =>
            obtain ⟨rfl, hrest⟩ : l = p ∧ rest = pre2 ++ bad :: post := by
              simpa using hsplit
            have hrec : parse_input_go rest = Except.error e :=
              ih.mpr ⟨pre2, bad, post, hrest, fun x hx => hpre x (by simp [hx]), hbad⟩
            rw [h2] at hrec
            simp [parse_input_go, h, h2]
            exact (Except.error.injEq _ _).mp hrec
      | ok gs =>
        constructor
        · intro hgo
          exact absurd hgo (by simp [parse_input_go, h, h2])
        · rintro ⟨pre, bad, post, hsplit, hpre, hbad⟩
          cases pre with
          | nil =>
            obtain ⟨rfl, -⟩ : l = bad ∧ rest = post := by simpa using hsplit
            rw [h] at hbad
            cases hbad
          | cons p pre2 =>
            obtain ⟨rfl, hrest⟩ : l = p ∧ rest = pre2 ++ bad :: post := by
              simpa using hsplit
            have hrec : parse_input_go rest = Except.error e :=
              ih.mpr ⟨pre2, bad, post, hrest, fun x hx => hpre x (by simp [hx]), hbad⟩
            rw [h2] at hrec
            cases hrec

/-! ## Claim theorems -/

/-- Claim C1: parsing the five canonical example games and mapping each game
to `get_requirements().get_power()` yields the per-game powers
[48, 12, 1560, 630, 36], whose sum is 2286. -/
theorem C1_example_powers :
    (parse_input exampleInput).map
        (fun gs => gs.map (fun g => g.get_requirements.get_power)) =
      Except.ok [48, 12, 1560, 630, 36] ∧
    (parse_input exampleInput).map
        (fun gs => calculate_result (gs.map (fun g => g.get_requirements.get_power))) =
      Except.ok 2286 := by
  constructor <;> rfl

/-- Claim C2, counterexample: the code's `can_contain` disagrees with the
claimed predicate at self = the empty bag, other = a bag holding Red with
count 0: the code returns false, the claim says true. -/
theorem C2_counterexample :
    Bag.can_contain Bag.empty ⟨some 0, none, none⟩ = false ∧
    specContains Bag.empty ⟨some 0, none, none⟩ = true := by
  constructor <;> rfl

/-- Claim C2, amended: `can_contain self other` is false exactly when
`other` has a category absent from `self` (regardless of its count, zero
included) or a greater count for a shared category, and true in every other
case, including when `self` has extra categories. -/
theorem C2_amended (self other : Bag) :
    self.can_contain other = specContainsStrict self other := by
  obtain ⟨r1, g1, b1⟩ := self
  obtain ⟨r2, g2, b2⟩ := other
  cases r1 <;> cases g1 <;> cases b1 <;> cases r2 <;> cases g2 <;> cases b2 <;>
    simp [Bag.can_contain, specContainsStrict, Bag.entries, allColors, Bag.get]

/-- Claim C3: `with_dice` on a category already present overwrites the
stored count (last write wins) and leaves other categories unchanged, and
`with_bag` sets each category present in `other` to exactly `other`'s count
while leaving categories absent from `other` unchanged. -/
theorem C3_builder_overwrite :
    (∀ (b : BagBuilder) (c : Color) (n m : Nat), b.dice.get c = some m →
      (b.with_dice c n).dice.get c = some n ∧
        ∀ c2 : Color, c2 ≠ c → (b.with_dice c n).dice.get c2 = b.dice.get c2) ∧
    (∀ (b : BagBuilder) (other : Bag) (c : Color),
      (b.with_bag other).dice.get c =
        match other.get c with
        | some k => some k
        | none => b.dice.get c) := by
  constructor
  · intro b c n m _
    constructor
    · cases c <;> simp [BagBuilder.with_dice, Bag.insert, Bag.get]
    · intro c2 hne
      cases c <;> cases c2 <;>
        simp_all [BagBuilder.with_dice, Bag.insert, Bag.get]
  · exact with_bag_get

/-- Witness for C3: overwriting Red 12 with Red 14 stores 14. -/
theorem C3_builder_overwrite_witness :
    ((BagBuilder.new.with_dice Color.Red 12).with_dice Color.Red 14).dice.get
      Color.Red = some 14 :=
  (C3_builder_overwrite.1 (BagBuilder.new.with_dice Color.Red 12)
    Color.Red 14 12 rfl).1

/-- Claim C4: `fits_in bag` is true iff every draw is contained by `bag`,
and a game with zero draws fits in every bag. -/
theorem C4_fits_in (g : Game) (bag : Bag) :
    (g.fits_in bag = true ↔ ∀ s ∈ g.sets, bag.can_contain s = true) ∧
    (Game.new []).fits_in bag = true := by
  refine ⟨?_, rfl⟩
  simp [Game.fits_in, List.all_eq_true]

/-- Witness for C4 at a concrete game and bag. -/
theorem C4_fits_in_witness : (Game.new []).fits_in Bag.empty = true :=
  (C4_fits_in (Game.new []) Bag.empty).2

/-- Claim C5: `parse_input` works on the document's lines, trimmed, with
lines empty after trimming discarded; it succeeds exactly when every
remaining line parses, returning the games in document order, and fails
exactly with the error of the first line (in document order) that fails to
parse, with no partial results. -/
theorem C5_parse_input (input : List Char) :
    (∀ l ∈ inputLines input, l ≠ [] ∧ ∃ l0 ∈ rustLines input, l = trim l0) ∧
    (∀ gs : List NumberedGame, parse_input input = Except.ok gs ↔
      (inputLines input).map parse_line = gs.map Except.ok) ∧
    (∀ e : Error, parse_input input = Except.error e ↔
      ∃ pre bad post, inputLines input = pre ++ bad :: post ∧
        (∀ l ∈ pre, ∃ g, parse_line l = Except.ok g) ∧
        parse_line bad = Except.error e) := by
  refine ⟨?_, fun gs => parse_input_go_ok_iff (inputLines input) gs,
    fun e => parse_input_go_error_iff (inputLines input) e⟩
  intro l hl
  simp only [inputLines, List.mem_filter, List.mem_map] at hl
  obtain ⟨⟨l0, hl0, rfl⟩, hne⟩ := hl
  refine ⟨?_, l0, hl0, rfl⟩
  simpa using hne

/-- Witness for C5 at a concrete one-line document. -/
theorem C5_parse_input_witness :
    parse_input ("Game 1: 1 red".data) =
      Except.ok [⟨1, Game.new [⟨some 1, none, none⟩]⟩] :=
  ((C5_parse_input ("Game 1: 1 red".data)).2.1
    [⟨1, Game.new [⟨some 1, none, none⟩]⟩]).mpr (by rfl)

/-- Claim C6: `parse_die` returns `BadlyFormattedDie` exactly when the
whitespace split does not have two parts, or it does and the count fails to
parse; it returns `UnknownColor` exactly when there are two parts, the
count parses, and the color is not recognized; the two error kinds are
distinct. -/
theorem C6_parse_die_errors (raw : List Char) :
    (parse_die raw = Except.error Error.BadlyFormattedDie ↔
      (splitWhitespace raw).length ≠ 2 ∨
        ((splitWhitespace raw).length = 2 ∧
          parseU64 ((splitWhitespace raw).getD 0 []) = none)) ∧
    (parse_die raw = Except.error Error.UnknownColor ↔
      ((splitWhitespace raw).length = 2 ∧
        (parseU64 ((splitWhitespace raw).getD 0 [])).isSome = true ∧
        Color.try_from_str ((splitWhitespace raw).getD 1 []) = none)) ∧
    Error.UnknownColor ≠ Error.BadlyFormattedDie := by
  refine ⟨?_, ?_, by decide⟩ <;>
    rcases hsw : splitWhitespace raw with _ | ⟨a, _ | ⟨b, _ | ⟨c, rest⟩⟩⟩ <;>
      simp [parse_die, hsw] <;>
      cases hp : parseU64 a <;> simp [hp] <;>
        cases hc : Color.try_from_str b <;> simp [hc]

/-- Witness for C6: `"2 yellow"` is a two-part token with a parsable count
and an unrecognized color, so it yields `UnknownColor`. -/
theorem C6_parse_die_errors_witness :
    parse_die ("2 yellow".data) = Except.error Error.UnknownColor :=
  ((C6_parse_die_errors ("2 yellow".data)).2.1).mpr (by decide)

/-- Claim C7: `parse_line` reports `MissingParts` when splitting the
trimmed line on `:` yields fewer than two segments and `TooManyParts` when
it yields more than two, in both cases independently of the segments'
contents (no title or body parsing takes place). -/
theorem C7_parse_line_split (line : List Char) :
    ((splitOnChar ':' (trim line)).length < 2 →
      parse_line line = Except.error Error.MissingParts) ∧
    (2 < (splitOnChar ':' (trim line)).length →
      parse_line line = Except.error Error.TooManyParts) := by
  rcases hsp : splitOnChar ':' (trim line) with _ | ⟨a, _ | ⟨b, _ | ⟨c, rest⟩⟩⟩ <;>
    simp [parse_line, hsp]

/-- Witness for C7: a line with no `:` gives `MissingParts`, a line with
two `:` gives `TooManyParts`. -/
theorem C7_parse_line_split_witness :
    parse_line ("Game 1".data) = Except.error Error.MissingParts ∧
    parse_line ("a:b:c".data) = Except.error Error.TooManyParts :=
  ⟨(C7_parse_line_split ("Game 1".data)).1 (by decide),
   (C7_parse_line_split ("a:b:c".data)).2 (by decide)⟩

/-- Claim C8: `parse_title` succeeds with value `n` exactly when the
trimmed segment starts with `"Game "`, splitting it on single spaces gives
exactly two tokens, and the second token parses as a `u64` with value `n`;
in every other case it returns `BadlyFormattedTitle`; and every returned
value is in unsigned 64-bit range. -/
theorem C8_parse_title (raw : List Char) :
    (∀ n : Nat, parse_title raw = Except.ok n ↔
      ("Game ".data.isPrefixOf (trim raw) = true ∧
        (splitOnChar ' ' (trim raw)).length = 2 ∧
        parseU64 ((splitOnChar ' ' (trim raw)).getD 1 []) = some n)) ∧
    (parse_title raw = Except.error Error.BadlyFormattedTitle ↔
      ¬ ("Game ".data.isPrefixOf (trim raw) = true ∧
        (splitOnChar ' ' (trim raw)).length = 2 ∧
        (parseU64 ((splitOnChar ' ' (trim raw)).getD 1 [])).isSome = true)) ∧
    (∀ n : Nat, parse_title raw = Except.ok n → n < 2 ^ 64) := by
  have hchar : ∀ n : Nat, parse_title raw = Except.ok n ↔
      ("Game ".data.isPrefixOf (trim raw) = true ∧
        (splitOnChar ' ' (trim raw)).length = 2 ∧
        parseU64 ((splitOnChar ' ' (trim raw)).getD 1 []) = some n) := by
    intro n
    by_cases hp : ("Game ".data.isPrefixOf (trim raw)) = true
    · by_cases hl : (splitOnChar ' ' (trim raw)).length = 2
      · simp [parse_title, hp, hl]
        split <;> simp_all
      · simp [parse_title, hp, hl]
    · simp [parse_title, hp]
  have herr : parse_title raw = Except.error Error.BadlyFormattedTitle ↔
      ¬ ("Game ".data.isPrefixOf (trim raw) = true ∧
        (splitOnChar ' ' (trim raw)).length = 2 ∧
        (parseU64 ((splitOnChar ' ' (trim raw)).getD 1 [])).isSome = true) := by
    by_cases hp : ("Game ".data.isPrefixOf (trim raw)) = true
    · by_cases hl : (splitOnChar ' ' (trim raw)).length = 2
      · simp [parse_title, hp, hl]
        split <;> simp_all
      · simp [parse_title, hp, hl]
    · simp [parse_title, hp]
  exact ⟨hchar, herr, fun n h => parseU64_lt _ n ((hchar n).mp h).2.2⟩

/-- Witness for C8: `" Game 7 "` parses to 7. -/
theorem C8_parse_title_witness : parse_title (" Game 7 ".data) = Except.ok 7 :=
  ((C8_parse_title (" Game 7 ".data)).1 7).mpr (by decide)

/-- Claim C9: containment is reflexive: every bag can contain itself. -/
theorem C9_contains_refl (b : Bag) : b.can_contain b = true := by
  obtain ⟨r, g, bl⟩ := b
  cases r <;> cases g <;> cases bl <;>
    simp [Bag.can_contain, Bag.entries, allColors, Bag.get]

/-- Claim C10: splitting a body on `;` and a draw on `,` always yields at
least one token, an empty draw fails to parse rather than producing an
empty bag, and every successfully parsed game has at least one draw, each
of whose bags has at least one color entry. -/
theorem C10_no_empty_games :
    (∀ raw : List Char, splitOnChar ';' raw ≠ [] ∧ splitOnChar ',' raw ≠ []) ∧
    parse_set [] = Except.error Error.BadlyFormattedDie ∧
    (∀ (line : List Char) (ng : NumberedGame),
      parse_line line = Except.ok ng →
        ng.game.sets ≠ [] ∧ ∀ b ∈ ng.game.sets, b.entries ≠ []) := by
  refine ⟨fun raw => ⟨splitP_ne_nil _ raw, splitP_ne_nil _ raw⟩, rfl, ?_⟩
  intro line ng h
  unfold parse_line at h
  split at h
  · simp at h
  · simp at h
  · split at h
    · simp at h
    · split at h
      · simp at h
      · rename_i game hgame
        obtain rfl : (⟨_, game⟩ : NumberedGame) = ng := by simpa using h
        exact parse_game_ok_props _ game hgame
  · simp at h

/-- Witness for C10 at a concrete successfully parsed line. -/
theorem C10_no_empty_games_witness :
    (⟨1, Game.new [⟨some 1, none, none⟩]⟩ : NumberedGame).game.sets ≠ [] :=
  (C10_no_empty_games.2.2 ("Game 1: 1 red".data)
    ⟨1, Game.new [⟨some 1, none, none⟩]⟩ (by rfl)).1

end Day2
